import Mathlib

/-!
# The non-central t wrappers of `nct.cpp`

A shallow embedding of the six exported functions of `src/nct.cpp`
(`dnct`, `pnct`, `qnct`, `dnct_vec`, `createDistributionList`,
`evaluateDistributions`) and the properties the specification states
about them.

Conventions of the embedding.

* A `double` is an arbitrary type `R`; nothing in the file computes with
  the numbers, it only passes them to the library and stores the answers.
* The Boost.Math library is a parameter (`Collaborator`): the constructor
  of `boost::math::non_central_t` and the three free functions `pdf`,
  `cdf`, `quantile`, each of which may throw.
* A thrown C++ exception is the `error` side of `Except`; the error type
  `Fault` also has entries for an error raised by the R runtime and for
  undefined behaviour, so that every execution of the code has an outcome
  in the model.
* `Rcpp::NumericVector` is a list; `int n = v.size()` is the narrowing
  conversion `toInt`.
* The `non_central_t` objects whose address is taken live in an explicit
  object store, so that the lifetime of what an `XPtr` points to is part
  of the model.
-/

namespace Nct

/-! ## Outcomes -/

/-- Undefined behaviour that the code of `nct.cpp` can reach. -/
inductive Undefined where
  /-- Unchecked `operator[]` past the end of an Rcpp vector. -/
  | outOfBounds
  /-- Indirection through a pointer to an object whose lifetime has ended. -/
  | danglingHandle
  deriving DecidableEq

/-- Errors raised by the R/Rcpp runtime rather than by `nct.cpp` or by Boost. -/
inductive HostError where
  /-- A vector, list or matrix is requested with a negative `int` extent. -/
  | negativeExtent
  /-- The value given to `Rcpp::as<Rcpp::XPtr<...>>` is not an external pointer. -/
  | notExternalPointer
  deriving DecidableEq

/-- Every way a call into `nct.cpp` can end without a result; `E` is the
type of the exceptions of the math library. -/
inductive Fault (E : Type) where
  /-- The `std::invalid_argument` thrown at line 34, with its message. -/
  | invalidArgument (what : String)
  /-- An exception thrown by Boost.Math, propagated unchanged. Boost.Math
  reports an error as a `std::domain_error`, a `std::overflow_error` or one
  of its own exception types, never as a `std::invalid_argument`. -/
  | collaborator (e : E)
  /-- An error of the R runtime. -/
  | host (h : HostError)
  /-- The execution has undefined behaviour. -/
  | undefined (u : Undefined)
  deriving DecidableEq

/-! ## The math library -/

/-- The part of Boost.Math that `nct.cpp` uses. `D` is the type of a
constructed `boost::math::non_central_t` object. -/
structure Collaborator (R E D : Type) where
  /-- The constructor call `boost::math::non_central_t dist(df, ncp)`. -/
  construct : R → R → Except E D
  /-- The call `pdf(dist, x)`. -/
  pdf : D → R → Except E R
  /-- The call `cdf(dist, q)`. -/
  cdf : D → R → Except E R
  /-- The call `quantile(dist, p)`. -/
  quantile : D → R → Except E R

/-- An exception of the library leaves the wrapper as it is. -/
def liftLib {E α : Type} : Except E α → Except (Fault E) α
  | .ok a => .ok a
  | .error e => .error (.collaborator e)

/-- The value the specification calls `density(df, ncp, x)` (section 6):
the density at `x` of the distribution with shape `(df, ncp)`, as the
library gives it. -/
def Collaborator.density {R E D : Type} (c : Collaborator R E D) (df ncp x : R) : Except E R :=
  match c.construct df ncp with
  | .ok d => c.pdf d x
  | .error e => .error e

/-- The value the specification calls `cumulative(df, ncp, q)` (section 6). -/
def Collaborator.cumulative {R E D : Type} (c : Collaborator R E D) (df ncp q : R) : Except E R :=
  match c.construct df ncp with
  | .ok d => c.cdf d q
  | .error e => .error e

/-- The value the specification calls `quantile(df, ncp, p)` (section 6). -/
def Collaborator.inverse {R E D : Type} (c : Collaborator R E D) (df ncp p : R) : Except E R :=
  match c.construct df ncp with
  | .ok d => c.quantile d p
  | .error e => .error e

/-! ## Vectors and sizes -/

/-- The conversion `int n = v.size()`: the size, a 64-bit `R_xlen_t`, is
reduced modulo `2^32` to the range of a 32-bit `int`. It is the identity
below `2^31`. -/
def toInt (n : Nat) : Int :=
  (((n + 2147483648) % 4294967296 : Nat) : Int) - 2147483648

/-- The read `v[i]` of an Rcpp vector. `operator[]` does not check its
index, so a read past the end has undefined behaviour. -/
def readAt {E α : Type} (v : List α) (i : Nat) : Except (Fault E) α :=
  match v[i]? with
  | some a => .ok a
  | none => .error (.undefined .outOfBounds)

/-! ## Scalar wrappers (lines 8-24) -/

/-- Lines 8-11: `dnct`. -/
def dnct {R E D : Type} (c : Collaborator R E D) (x df ncp : R) : Except (Fault E) R := do
  let dist ← liftLib (c.construct df ncp)
  liftLib (c.pdf dist x)

/-- Lines 14-17: `pnct`. -/
def pnct {R E D : Type} (c : Collaborator R E D) (q df ncp : R) : Except (Fault E) R := do
  let dist ← liftLib (c.construct df ncp)
  liftLib (c.cdf dist q)

/-- Lines 21-24: `qnct`. -/
def qnct {R E D : Type} (c : Collaborator R E D) (p df ncp : R) : Except (Fault E) R := do
  let dist ← liftLib (c.construct df ncp)
  liftLib (c.quantile dist p)

/-! ## Element-wise density (lines 28-46) -/

/-- Lines 40-43: the loop `for (int i = 0; i < n; ++i)` of `dnct_vec`, with
`remaining = n - i` iterations still to run. -/
def dnct_vec_loop {R E D : Type} (c : Collaborator R E D) (x df ncp : List R) :
    Nat → Nat → List R → Except (Fault E) (List R)
  | 0, _, result => .ok result
  | remaining + 1, i, result => do
    let dfi ← readAt df i
    let ncpi ← readAt ncp i
    let dist ← liftLib (c.construct dfi ncpi)
    let xi ← readAt x i
    let v ← liftLib (c.pdf dist xi)
    dnct_vec_loop c x df ncp remaining (i + 1) (result.set i v)

/-- Lines 28-46: `dnct_vec`. -/
def dnct_vec {R E D : Type} [Zero R] (c : Collaborator R E D) (x df ncp : List R) :
    Except (Fault E) (List R) :=
  if x.length ≠ df.length ∨ x.length ≠ ncp.length then
    .error (.invalidArgument "Input vectors must have the same length")
  else
    let n := toInt x.length
    if n < 0 then
      -- `Rcpp::NumericVector result(n)` with a negative `n`
      .error (.host .negativeExtent)
    else
      dnct_vec_loop c x df ncp n.toNat 0 (List.replicate n.toNat 0)

/-! ## Distribution handles (lines 52-82) -/

/-- One `non_central_t` object of the store: within its lifetime, or past it. -/
inductive Slot (D : Type) where
  | live (d : D)
  | dead
  deriving DecidableEq

/-- The `non_central_t` objects whose address has been taken, by address. -/
abbrev Store (D : Type) := List (Slot D)

/-- An element of an `Rcpp::List`: `R_NilValue`, or an external pointer
holding the address of a `non_central_t` object. -/
inductive SEXP where
  | null
  | extptr (addr : Nat)
  deriving DecidableEq

/-- Lines 56-59: the loop of `createDistributionList`. Each iteration
constructs the block-scoped `dist`, stores its address in `distList[i]`,
and leaves the block, which ends the lifetime of `dist`. The finalizer that
the argument `true` registers runs when R collects the pointer; it is not
part of the model. -/
def createDistributionList_loop {R E D : Type} (c : Collaborator R E D) (df ncp : List R) :
    Nat → Nat → List SEXP → Store D → Except (Fault E) (List SEXP × Store D)
  | 0, _, distList, store => .ok (distList, store)
  | remaining + 1, i, distList, store => do
    let dfi ← readAt df i
    let ncpi ← readAt ncp i
    let dist ← liftLib (c.construct dfi ncpi)
    -- `dist` is a new object, at the next free address
    let addr := store.length
    let store := store ++ [Slot.live dist]
    -- `distList[i] = Rcpp::XPtr<...>(&dist, true)`
    let distList := distList.set i (SEXP.extptr addr)
    -- the closing brace of the loop body
    let store := store.set addr Slot.dead
    createDistributionList_loop c df ncp remaining (i + 1) distList store

/-- Lines 52-62: `createDistributionList`, from the store before the call to
the returned list and the store after the call. -/
def createDistributionList {R E D : Type} (c : Collaborator R E D) (df ncp : List R)
    (store : Store D) : Except (Fault E) (List SEXP × Store D) :=
  let n := toInt df.length
  if n < 0 then
    -- `Rcpp::List distList(n)` with a negative `n`
    .error (.host .negativeExtent)
  else
    createDistributionList_loop c df ncp n.toNat 0 (List.replicate n.toNat SEXP.null) store

/-- An `Rcpp::NumericMatrix`: its two extents and its cells, `cell j i`
being what the code writes as `result(j, i)`. -/
structure NumericMatrix (R : Type) where
  nrow : Nat
  ncol : Nat
  cell : Nat → Nat → R

/-- The matrix `Rcpp::NumericMatrix result(nrow, ncol)`, filled with zeros. -/
def NumericMatrix.zeros {R : Type} [Zero R] (nrow ncol : Nat) : NumericMatrix R :=
  ⟨nrow, ncol, fun _ _ => 0⟩

/-- The assignment `result(j, i) = v`. -/
def NumericMatrix.set {R : Type} (m : NumericMatrix R) (j i : Nat) (v : R) : NumericMatrix R :=
  ⟨m.nrow, m.ncol, fun j1 i1 => if j1 = j ∧ i1 = i then v else m.cell j1 i1⟩

/-- The conversion `Rcpp::as<Rcpp::XPtr<boost::math::non_central_t>>(s)`
followed by the conversion of the `XPtr` to a raw pointer. -/
def asXPtr {E : Type} : SEXP → Except (Fault E) Nat
  | .extptr addr => .ok addr
  | .null => .error (.host .notExternalPointer)

/-- The indirection `*distPtr`. -/
def deref {E D : Type} (store : Store D) (addr : Nat) : Except (Fault E) D :=
  match store[addr]? with
  | some (.live d) => .ok d
  | _ => .error (.undefined .danglingHandle)

/-- Lines 76-78: the inner loop of `evaluateDistributions`, over the query
points, for the distribution of column `i`. -/
def evaluateDistributions_inner {R E D : Type} (c : Collaborator R E D) (dist : D)
    (x : List R) (i : Nat) : Nat → Nat → NumericMatrix R → Except (Fault E) (NumericMatrix R)
  | 0, _, result => .ok result
  | remaining + 1, j, result => do
    let xj ← readAt x j
    let v ← liftLib (c.pdf dist xj)
    evaluateDistributions_inner c dist x i remaining (j + 1) (result.set j i v)

/-- Lines 72-79: the outer loop of `evaluateDistributions`, over the handles. -/
def evaluateDistributions_outer {R E D : Type} (c : Collaborator R E D) (store : Store D)
    (distList : List SEXP) (x : List R) (n_x : Nat) :
    Nat → Nat → NumericMatrix R → Except (Fault E) (NumericMatrix R)
  | 0, _, result => .ok result
  | remaining + 1, i, result => do
    let s ← readAt distList i
    let distPtr ← asXPtr s
    let dist ← deref store distPtr
    let result ← evaluateDistributions_inner c dist x i n_x 0 result
    evaluateDistributions_outer c store distList x n_x remaining (i + 1) result

/-- Lines 66-82: `evaluateDistributions`, in the store `store`. -/
def evaluateDistributions {R E D : Type} [Zero R] (c : Collaborator R E D) (store : Store D)
    (distList : List SEXP) (x : List R) : Except (Fault E) (NumericMatrix R) :=
  let n_dist := toInt distList.length
  let n_x := toInt x.length
  if n_x < 0 ∨ n_dist < 0 then
    -- `Rcpp::NumericMatrix result(n_x, n_dist)` with a negative extent
    .error (.host .negativeExtent)
  else
    evaluateDistributions_outer c store distList x n_x.toNat n_dist.toNat 0
      (NumericMatrix.zeros n_x.toNat n_dist.toNat)

/-! ## A library to run the wrappers on -/

/-- The one exception of the sample library. -/
inductive SampleError where
  | domain
  deriving DecidableEq

/-- A small library over the integers, for running the wrappers on concrete
input. Its constructor rejects `df ≤ 0`, as the constructor of
`boost::math::non_central_t` does under Boost's default error policy; its
quantile rejects `p` outside `[0, 1]`; the values it returns only encode
their arguments. -/
def sample : Collaborator Int SampleError (Int × Int) where
  construct := fun df ncp => if df ≤ 0 then .error .domain else .ok (df, ncp)
  pdf := fun d x => .ok (100 * d.1 + 10 * d.2 + x)
  cdf := fun d q => .ok (100 * d.1 + 10 * d.2 + q)
  quantile := fun d p => if p < 0 ∨ 1 < p then .error .domain else .ok (100 * d.1 + 10 * d.2 + p)

/-! ## Sizes and reads -/

theorem toInt_of_lt {n : Nat} (h : n < 2147483648) : toInt n = (n : Int) := by
  unfold toInt
  omega

theorem toInt_toNat_of_lt {n : Nat} (h : n < 2147483648) : (toInt n).toNat = n := by
  rw [toInt_of_lt h]
  exact Int.toNat_natCast n

theorem toInt_not_neg_of_lt {n : Nat} (h : n < 2147483648) : ¬ toInt n < 0 := by
  rw [toInt_of_lt h]
  omega

theorem readAt_some {E α : Type} {v : List α} {i : Nat} {a : α} (h : v[i]? = some a) :
    (readAt v i : Except (Fault E) α) = .ok a := by
  simp [readAt, h]

theorem readAt_none {E α : Type} {v : List α} {i : Nat} (h : v[i]? = none) :
    (readAt v i : Except (Fault E) α) = .error (.undefined .outOfBounds) := by
  simp [readAt, h]

/-! ## The scalar wrappers -/

theorem dnct_eq_density {R E D : Type} (c : Collaborator R E D) (x df ncp : R) :
    dnct c x df ncp = liftLib (c.density df ncp x) := by
  unfold dnct Collaborator.density
  cases c.construct df ncp <;> rfl

theorem dnct_error_collaborator {R E D : Type} (c : Collaborator R E D) (x df ncp : R)
    (f : Fault E) (h : dnct c x df ncp = .error f) : ∃ e, f = .collaborator e := by
  rw [dnct_eq_density] at h
  cases hd : c.density df ncp x with
  | ok v => rw [hd] at h; cases h
  | error e => rw [hd] at h; cases h; exact ⟨e, rfl⟩

/-! ## The loop of `dnct_vec` -/

theorem dnct_vec_loop_succ {R E D : Type} (c : Collaborator R E D) (x df ncp : List R)
    (remaining i : Nat) (result : List R) {xi dfi ncpi : R}
    (hx : x[i]? = some xi) (hdf : df[i]? = some dfi) (hncp : ncp[i]? = some ncpi) :
    dnct_vec_loop c x df ncp (remaining + 1) i result =
      (dnct c xi dfi ncpi).bind
        (fun v => dnct_vec_loop c x df ncp remaining (i + 1) (result.set i v)) := by
  rw [dnct_vec_loop, readAt_some hdf, readAt_some hncp, readAt_some hx]
  unfold dnct
  cases hc : c.construct dfi ncpi with
  | error e => simp [liftLib, hc, bind, Except.bind]
  | ok d =>
    cases hp : c.pdf d xi with
    | error e => simp [liftLib, hc, hp, bind, Except.bind]
    | ok v => simp [liftLib, hc, hp, bind, Except.bind]

/-- The loop of `dnct_vec` runs to its end when every element it visits has
a density: it keeps the length of `result`, leaves the entries outside the
range it visits alone, and puts each density at its index. -/
theorem dnct_vec_loop_ok {R E D : Type} (c : Collaborator R E D) (x df ncp : List R)
    (remaining : Nat) :
    ∀ (i : Nat) (result : List R), i + remaining ≤ result.length →
      (∀ k, i ≤ k → k < i + remaining → ∃ xk dfk ncpk v,
        x[k]? = some xk ∧ df[k]? = some dfk ∧ ncp[k]? = some ncpk ∧
          dnct c xk dfk ncpk = .ok v) →
      ∃ r, dnct_vec_loop c x df ncp remaining i result = .ok r ∧
        r.length = result.length ∧
        (∀ k, k < i ∨ i + remaining ≤ k → r[k]? = result[k]?) ∧
        (∀ k xk dfk ncpk, i ≤ k → k < i + remaining →
          x[k]? = some xk → df[k]? = some dfk → ncp[k]? = some ncpk →
          ∃ v, r[k]? = some v ∧ dnct c xk dfk ncpk = .ok v) := by
  induction remaining with
  | zero =>
    intro i result _ _
    refine ⟨result, rfl, rfl, fun _ _ => rfl, ?_⟩
    intro k _ _ _ h1 h2
    omega
  | succ n ih =>
    intro i result hlen hall
    obtain ⟨xi, dfi, ncpi, v, hx, hdf, hncp, hv⟩ := hall i (Nat.le_refl i) (by omega)
    rw [dnct_vec_loop_succ c x df ncp n i result hx hdf hncp, hv]
    obtain ⟨r, hr, hrlen, hout, hin⟩ := ih (i + 1) (result.set i v)
      (by rw [List.length_set]; omega)
      (fun k h1 h2 => hall k (by omega) (by omega))
    refine ⟨r, hr, by rw [hrlen, List.length_set], ?_, ?_⟩
    · intro k hk
      rw [hout k (by omega)]
      exact List.getElem?_set_ne (by omega)
    · intro k xk dfk ncpk h1 h2 hxk hdfk hncpk
      by_cases hki : k = i
      · subst hki
        rw [hx] at hxk
        rw [hdf] at hdfk
        rw [hncp] at hncpk
        cases hxk
        cases hdfk
        cases hncpk
        refine ⟨v, ?_, hv⟩
        rw [hout k (by omega)]
        exact List.getElem?_set_self (by omega)
      · exact hin k xk dfk ncpk (by omega) (by omega) hxk hdfk hncpk

/-- The loop of `dnct_vec` stops at the first element without a density,
with the failure of that element. -/
theorem dnct_vec_loop_error {R E D : Type} (c : Collaborator R E D) (x df ncp : List R)
    (remaining : Nat) :
    ∀ (i : Nat) (result : List R) (k : Nat) (f : Fault E), i ≤ k → k < i + remaining →
      (∀ m, i ≤ m → m < k → ∃ xm dfm ncpm v,
        x[m]? = some xm ∧ df[m]? = some dfm ∧ ncp[m]? = some ncpm ∧
          dnct c xm dfm ncpm = .ok v) →
      (∃ xk dfk ncpk, x[k]? = some xk ∧ df[k]? = some dfk ∧ ncp[k]? = some ncpk ∧
          dnct c xk dfk ncpk = .error f) →
      dnct_vec_loop c x df ncp remaining i result = .error f := by
  induction remaining with
  | zero =>
    intro i result k f h1 h2
    omega
  | succ n ih =>
    intro i result k f h1 h2 hbefore hfail
    by_cases hki : k = i
    · subst hki
      obtain ⟨xk, dfk, ncpk, hx, hdf, hncp, hf⟩ := hfail
      rw [dnct_vec_loop_succ c x df ncp n k result hx hdf hncp, hf]
      rfl
    · obtain ⟨xi, dfi, ncpi, v, hx, hdf, hncp, hv⟩ := hbefore i (Nat.le_refl i) (by omega)
      rw [dnct_vec_loop_succ c x df ncp n i result hx hdf hncp, hv]
      exact ih (i + 1) (result.set i v) k f (by omega) (by omega)
        (fun m hm1 hm2 => hbefore m (by omega) hm2) hfail

/-- The loop of `dnct_vec` throws nothing of its own: a failure of the loop
is a failure of the library or a read past the end of an input. -/
theorem dnct_vec_loop_fault {R E D : Type} (c : Collaborator R E D) (x df ncp : List R)
    (remaining : Nat) :
    ∀ (i : Nat) (result : List R) (f : Fault E),
      dnct_vec_loop c x df ncp remaining i result = .error f →
      (∃ e, f = .collaborator e) ∨ f = .undefined .outOfBounds := by
  induction remaining with
  | zero =>
    intro i result f h
    cases h
  | succ n ih =>
    intro i result f h
    cases hdf : df[i]? with
    | none =>
      rw [dnct_vec_loop, readAt_none hdf] at h
      cases h
      exact Or.inr rfl
    | some dfi =>
      cases hncp : ncp[i]? with
      | none =>
        rw [dnct_vec_loop, readAt_some hdf, readAt_none hncp] at h
        cases h
        exact Or.inr rfl
      | some ncpi =>
        cases hx : x[i]? with
        | none =>
          rw [dnct_vec_loop, readAt_some hdf, readAt_some hncp, readAt_none hx] at h
          cases hc : c.construct dfi ncpi with
          | error e =>
            simp [liftLib, hc, bind, Except.bind] at h
            exact Or.inl ⟨e, h.symm⟩
          | ok d =>
            simp [liftLib, hc, bind, Except.bind] at h
            exact Or.inr h.symm
        | some xi =>
          rw [dnct_vec_loop_succ c x df ncp n i result hx hdf hncp] at h
          cases hd : dnct c xi dfi ncpi with
          | error g =>
            rw [hd] at h
            cases h
            exact Or.inl (dnct_error_collaborator c xi dfi ncpi f hd)
          | ok v =>
            rw [hd] at h
            exact ih (i + 1) (result.set i v) f h

/-! ## `dnct_vec` -/

theorem dnct_vec_of_mismatch {R E D : Type} [Zero R] (c : Collaborator R E D)
    (x df ncp : List R) (h : x.length ≠ df.length ∨ x.length ≠ ncp.length) :
    dnct_vec c x df ncp =
      .error (.invalidArgument "Input vectors must have the same length") := by
  unfold dnct_vec
  rw [if_pos h]

theorem dnct_vec_of_match {R E D : Type} [Zero R] (c : Collaborator R E D)
    (x df ncp : List R) (hdf : x.length = df.length) (hncp : x.length = ncp.length) :
    dnct_vec c x df ncp =
      if toInt x.length < 0 then .error (.host .negativeExtent)
      else dnct_vec_loop c x df ncp (toInt x.length).toNat 0
        (List.replicate (toInt x.length).toNat 0) := by
  unfold dnct_vec
  rw [if_neg (by intro h; cases h with
    | inl h => exact h hdf
    | inr h => exact h hncp)]

theorem dnct_vec_of_short {R E D : Type} [Zero R] (c : Collaborator R E D)
    (x df ncp : List R) (hdf : x.length = df.length) (hncp : x.length = ncp.length)
    (hn : x.length < 2 ^ 31) :
    dnct_vec c x df ncp =
      dnct_vec_loop c x df ncp x.length 0 (List.replicate x.length 0) := by
  have hn1 : x.length < 2147483648 := by omega
  rw [dnct_vec_of_match c x df ncp hdf hncp, if_neg (toInt_not_neg_of_lt hn1),
    toInt_toNat_of_lt hn1]

theorem dnct_vec_of_wrap {R E D : Type} [Zero R] (c : Collaborator R E D)
    (x df ncp : List R) (hdf : x.length = df.length) (hncp : x.length = ncp.length)
    (m : Nat) (hm : toInt x.length = (m : Int)) :
    dnct_vec c x df ncp = dnct_vec_loop c x df ncp m 0 (List.replicate m 0) := by
  rw [dnct_vec_of_match c x df ncp hdf hncp, hm, if_neg (by omega), Int.toNat_natCast]

theorem toInt_two_pow_32 : toInt 4294967296 = ((0 : Nat) : Int) := by
  unfold toInt
  norm_num

theorem toInt_two_pow_32_succ : toInt (4294967296 + 1) = ((1 : Nat) : Int) := by
  unfold toInt
  norm_num

theorem toInt_two_pow_31 : toInt 2147483648 < 0 := by
  unfold toInt
  norm_num

/-- When `int n = x.size()` is `0`, `dnct_vec` returns the empty vector
without looking at an element. -/
theorem dnct_vec_of_wrap_zero {R E D : Type} [Zero R] (c : Collaborator R E D)
    (x df ncp : List R) (n : Nat) (hx : x.length = n) (hdf : df.length = n)
    (hncp : ncp.length = n) (hwrap : toInt n = ((0 : Nat) : Int)) :
    dnct_vec c x df ncp = .ok [] := by
  rw [dnct_vec_of_wrap c x df ncp (by omega) (by omega) 0 (by rw [hx]; exact hwrap)]
  rfl

/-- When `int n = x.size()` is `1`, `dnct_vec` returns the density of
element 0 alone. -/
theorem dnct_vec_of_wrap_one {R E D : Type} [Zero R] (c : Collaborator R E D)
    (x0 df0 ncp0 v : R) (xs dfs ncps : List R) (n : Nat) (hx : xs.length = n)
    (hdf : dfs.length = n) (hncp : ncps.length = n)
    (hwrap : toInt (n + 1) = ((1 : Nat) : Int)) (hv : dnct c x0 df0 ncp0 = .ok v) :
    dnct_vec c (x0 :: xs) (df0 :: dfs) (ncp0 :: ncps) = .ok [v] := by
  rw [dnct_vec_of_wrap c _ _ _ (by simp [hx, hdf]) (by simp [hx, hncp]) 1
    (by rw [List.length_cons, hx]; exact hwrap)]
  rw [dnct_vec_loop_succ c _ _ _ 0 0 _ (List.getElem?_cons_zero)
    (List.getElem?_cons_zero) (List.getElem?_cons_zero), hv]
  rfl

/-- Below a failing index there is a first failing index. -/
theorem exists_first_failure {R E D : Type} (c : Collaborator R E D) (x df ncp : List R)
    (hdf : x.length = df.length) (hncp : x.length = ncp.length) :
    ∀ (i : Nat) (xi dfi ncpi : R) (g : Fault E),
      x[i]? = some xi → df[i]? = some dfi → ncp[i]? = some ncpi →
      dnct c xi dfi ncpi = .error g →
      ∃ (k : Nat) (xk dfk ncpk : R) (f : Fault E), k ≤ i ∧
        x[k]? = some xk ∧ df[k]? = some dfk ∧ ncp[k]? = some ncpk ∧
        dnct c xk dfk ncpk = .error f ∧
        ∀ m, m < k → ∃ xm dfm ncpm v,
          x[m]? = some xm ∧ df[m]? = some dfm ∧ ncp[m]? = some ncpm ∧
            dnct c xm dfm ncpm = .ok v := by
  intro i
  induction i using Nat.strong_induction_on with
  | _ i ih =>
    intro xi dfi ncpi g hx hdfi hncpi hg
    by_cases hearlier : ∃ (m : Nat) (xm dfm ncpm : R) (f : Fault E), m < i ∧
        x[m]? = some xm ∧ df[m]? = some dfm ∧ ncp[m]? = some ncpm ∧
        dnct c xm dfm ncpm = .error f
    · obtain ⟨m, xm, dfm, ncpm, f, hmi, hxm, hdfm, hncpm, hf⟩ := hearlier
      obtain ⟨k, xk, dfk, ncpk, f1, hk, h1, h2, h3, h4, h5⟩ :=
        ih m hmi xm dfm ncpm f hxm hdfm hncpm hf
      exact ⟨k, xk, dfk, ncpk, f1, by omega, h1, h2, h3, h4, h5⟩
    · refine ⟨i, xi, dfi, ncpi, g, Nat.le_refl i, hx, hdfi, hncpi, hg, ?_⟩
      intro m hmi
      have hi : i < x.length := (List.getElem?_eq_some_iff.mp hx).1
      have hmx : m < x.length := by omega
      have hmdf : m < df.length := by omega
      have hmncp : m < ncp.length := by omega
      cases hd : dnct c x[m] df[m] ncp[m] with
      | ok v =>
        exact ⟨_, _, _, v, List.getElem?_eq_getElem hmx, List.getElem?_eq_getElem hmdf,
          List.getElem?_eq_getElem hmncp, hd⟩
      | error f =>
        exact absurd ⟨m, _, _, _, f, hmi, List.getElem?_eq_getElem hmx,
          List.getElem?_eq_getElem hmdf, List.getElem?_eq_getElem hmncp, hd⟩ hearlier

/-- On vectors of one length below `2^31`, `dnct_vec` fails with the
failure of the first element that has no density. -/
theorem dnct_vec_error_of_first_failure {R E D : Type} [Zero R] (c : Collaborator R E D)
    (x df ncp : List R) (hdf : x.length = df.length) (hncp : x.length = ncp.length)
    (hn : x.length < 2 ^ 31) (k : Nat) (f : Fault E)
    (hbefore : ∀ m, m < k → ∃ xm dfm ncpm v,
      x[m]? = some xm ∧ df[m]? = some dfm ∧ ncp[m]? = some ncpm ∧
        dnct c xm dfm ncpm = .ok v)
    (hfail : ∃ xk dfk ncpk, x[k]? = some xk ∧ df[k]? = some dfk ∧ ncp[k]? = some ncpk ∧
      dnct c xk dfk ncpk = .error f) :
    dnct_vec c x df ncp = .error f := by
  rw [dnct_vec_of_short c x df ncp hdf hncp hn]
  have hk : k < x.length := by
    obtain ⟨xk, _, _, hxk, _, _, _⟩ := hfail
    exact (List.getElem?_eq_some_iff.mp hxk).1
  exact dnct_vec_loop_error c x df ncp x.length 0 _ k f (Nat.zero_le k) (by omega)
    (fun m _ hm => hbefore m hm) hfail

/-! ## The loop of `createDistributionList` -/

/-- An object that is constructed and then destroyed leaves a dead slot. -/
theorem store_alloc_kill {D : Type} (store : Store D) (d : D) :
    (store ++ [Slot.live d]).set store.length Slot.dead = store ++ [Slot.dead] := by
  rw [List.set_append_right _ _ (Nat.le_refl _), Nat.sub_self]
  rfl

theorem createDistributionList_loop_succ {R E D : Type} (c : Collaborator R E D)
    (df ncp : List R) (remaining i : Nat) (distList : List SEXP) (store : Store D)
    {dfi ncpi : R} (hdf : df[i]? = some dfi) (hncp : ncp[i]? = some ncpi) :
    createDistributionList_loop c df ncp (remaining + 1) i distList store =
      (liftLib (c.construct dfi ncpi)).bind (fun _ =>
        createDistributionList_loop c df ncp remaining (i + 1)
          (distList.set i (SEXP.extptr store.length)) (store ++ [Slot.dead])) := by
  rw [createDistributionList_loop, readAt_some hdf, readAt_some hncp]
  cases hc : c.construct dfi ncpi with
  | error e => simp [liftLib, hc, bind, Except.bind]
  | ok d => simp [liftLib, hc, bind, Except.bind, store_alloc_kill]

/-- What a completed run of the loop of `createDistributionList` leaves
behind: one dead object per iteration, the address of the object of
iteration `k` in `distList[k]`, and every constructor call it made went
through. -/
theorem createDistributionList_loop_inv {R E D : Type} (c : Collaborator R E D)
    (df ncp : List R) (remaining : Nat) :
    ∀ (i : Nat) (distList : List SEXP) (store : Store D) (dl : List SEXP) (st : Store D),
      i + remaining ≤ distList.length →
      createDistributionList_loop c df ncp remaining i distList store = .ok (dl, st) →
      st = store ++ List.replicate remaining Slot.dead ∧ dl.length = distList.length ∧
      (∀ k, k < i ∨ i + remaining ≤ k → dl[k]? = distList[k]?) ∧
      (∀ k, i ≤ k → k < i + remaining →
        dl[k]? = some (SEXP.extptr (store.length + (k - i)))) ∧
      (∀ k, i ≤ k → k < i + remaining → ∃ dfk ncpk d,
        df[k]? = some dfk ∧ ncp[k]? = some ncpk ∧ c.construct dfk ncpk = .ok d) := by
  induction remaining with
  | zero =>
    intro i distList store dl st _ h
    rw [createDistributionList_loop] at h
    cases h
    refine ⟨by simp, rfl, fun _ _ => rfl, ?_, ?_⟩
    · intro k h1 h2
      omega
    · intro k h1 h2
      omega
  | succ n ih =>
    intro i distList store dl st hlen h
    cases hdf : df[i]? with
    | none =>
      rw [createDistributionList_loop, readAt_none hdf] at h
      cases h
    | some dfi =>
      cases hncp : ncp[i]? with
      | none =>
        rw [createDistributionList_loop, readAt_some hdf, readAt_none hncp] at h
        cases h
      | some ncpi =>
        rw [createDistributionList_loop_succ c df ncp n i distList store hdf hncp] at h
        cases hc : c.construct dfi ncpi with
        | error e =>
          rw [hc] at h
          cases h
        | ok d =>
          rw [hc] at h
          obtain ⟨hst, hdl, hout, hin, hcons⟩ := ih (i + 1) _ _ dl st
            (by rw [List.length_set]; omega) h
          refine ⟨?_, by rw [hdl, List.length_set], ?_, ?_, ?_⟩
          · rw [hst, List.replicate_succ, List.append_assoc]
            rfl
          · intro k hk
            rw [hout k (by omega)]
            exact List.getElem?_set_ne (by omega)
          · intro k h1 h2
            by_cases hki : k = i
            · subst hki
              rw [hout k (by omega), Nat.sub_self, Nat.add_zero]
              exact List.getElem?_set_self (by omega)
            · rw [hin k (by omega) (by omega), List.length_append]
              have : store.length + [Slot.dead (D := D)].length + (k - (i + 1)) =
                  store.length + (k - i) := by
                simp only [List.length_singleton]
                omega
              rw [this]
          · intro k h1 h2
            by_cases hki : k = i
            · subst hki
              exact ⟨dfi, ncpi, d, hdf, hncp, hc⟩
            · exact hcons k (by omega) (by omega)

/-- The loop of `createDistributionList` runs to its end when every
constructor call it makes goes through. -/
theorem createDistributionList_loop_ok {R E D : Type} (c : Collaborator R E D)
    (df ncp : List R) (remaining : Nat) :
    ∀ (i : Nat) (distList : List SEXP) (store : Store D),
      (∀ k, i ≤ k → k < i + remaining → ∃ dfk ncpk d,
        df[k]? = some dfk ∧ ncp[k]? = some ncpk ∧ c.construct dfk ncpk = .ok d) →
      ∃ dl st, createDistributionList_loop c df ncp remaining i distList store =
        .ok (dl, st) := by
  induction remaining with
  | zero =>
    intro i distList store _
    exact ⟨distList, store, rfl⟩
  | succ n ih =>
    intro i distList store hall
    obtain ⟨dfi, ncpi, d, hdf, hncp, hc⟩ := hall i (Nat.le_refl i) (by omega)
    rw [createDistributionList_loop_succ c df ncp n i distList store hdf hncp, hc]
    exact ih (i + 1) _ _ (fun k h1 h2 => hall k (by omega) (by omega))

/-- The loop of `createDistributionList` stops at the first constructor call
that fails, with the failure of that call. -/
theorem createDistributionList_loop_error {R E D : Type} (c : Collaborator R E D)
    (df ncp : List R) (remaining : Nat) :
    ∀ (i : Nat) (distList : List SEXP) (store : Store D) (k : Nat) (e : E),
      i ≤ k → k < i + remaining →
      (∀ m, i ≤ m → m < k → ∃ dfm ncpm d,
        df[m]? = some dfm ∧ ncp[m]? = some ncpm ∧ c.construct dfm ncpm = .ok d) →
      (∃ dfk ncpk, df[k]? = some dfk ∧ ncp[k]? = some ncpk ∧
        c.construct dfk ncpk = .error e) →
      createDistributionList_loop c df ncp remaining i distList store =
        .error (.collaborator e) := by
  induction remaining with
  | zero =>
    intro i distList store k e h1 h2
    omega
  | succ n ih =>
    intro i distList store k e h1 h2 hbefore hfail
    by_cases hki : k = i
    · subst hki
      obtain ⟨dfk, ncpk, hdf, hncp, hc⟩ := hfail
      rw [createDistributionList_loop_succ c df ncp n k distList store hdf hncp, hc]
      rfl
    · obtain ⟨dfi, ncpi, d, hdf, hncp, hc⟩ := hbefore i (Nat.le_refl i) (by omega)
      rw [createDistributionList_loop_succ c df ncp n i distList store hdf hncp, hc]
      exact ih (i + 1) _ _ k e (by omega) (by omega)
        (fun m hm1 hm2 => hbefore m (by omega) hm2) hfail

/-- The loop of `createDistributionList` throws nothing of its own. -/
theorem createDistributionList_loop_fault {R E D : Type} (c : Collaborator R E D)
    (df ncp : List R) (remaining : Nat) :
    ∀ (i : Nat) (distList : List SEXP) (store : Store D) (f : Fault E),
      createDistributionList_loop c df ncp remaining i distList store = .error f →
      (∃ e, f = .collaborator e) ∨ f = .undefined .outOfBounds := by
  induction remaining with
  | zero =>
    intro i distList store f h
    cases h
  | succ n ih =>
    intro i distList store f h
    cases hdf : df[i]? with
    | none =>
      rw [createDistributionList_loop, readAt_none hdf] at h
      cases h
      exact Or.inr rfl
    | some dfi =>
      cases hncp : ncp[i]? with
      | none =>
        rw [createDistributionList_loop, readAt_some hdf, readAt_none hncp] at h
        cases h
        exact Or.inr rfl
      | some ncpi =>
        rw [createDistributionList_loop_succ c df ncp n i distList store hdf hncp] at h
        cases hc : c.construct dfi ncpi with
        | error e =>
          rw [hc] at h
          cases h
          exact Or.inl ⟨e, rfl⟩
        | ok d =>
          rw [hc] at h
          exact ih (i + 1) _ _ f h

/-! ## The loops of `evaluateDistributions` -/

theorem evaluateDistributions_inner_succ {R E D : Type} (c : Collaborator R E D) (dist : D)
    (x : List R) (i remaining j : Nat) (result : NumericMatrix R) {xj : R}
    (hx : x[j]? = some xj) :
    evaluateDistributions_inner c dist x i (remaining + 1) j result =
      (liftLib (c.pdf dist xj)).bind (fun v =>
        evaluateDistributions_inner c dist x i remaining (j + 1) (result.set j i v)) := by
  rw [evaluateDistributions_inner, readAt_some hx]
  rfl

/-- The inner loop keeps the extents of the matrix. -/
theorem evaluateDistributions_inner_dims {R E D : Type} (c : Collaborator R E D) (dist : D)
    (x : List R) (i remaining : Nat) :
    ∀ (j : Nat) (m m1 : NumericMatrix R),
      evaluateDistributions_inner c dist x i remaining j m = .ok m1 →
      m1.nrow = m.nrow ∧ m1.ncol = m.ncol := by
  induction remaining with
  | zero =>
    intro j m m1 h
    rw [evaluateDistributions_inner] at h
    cases h
    exact ⟨rfl, rfl⟩
  | succ n ih =>
    intro j m m1 h
    cases hx : x[j]? with
    | none =>
      rw [evaluateDistributions_inner, readAt_none hx] at h
      cases h
    | some xj =>
      rw [evaluateDistributions_inner_succ c dist x i n j m hx] at h
      cases hp : c.pdf dist xj with
      | error e =>
        rw [hp] at h
        cases h
      | ok v =>
        rw [hp] at h
        exact ih (j + 1) (m.set j i v) m1 h

/-- The inner loop runs to its end when the library has a density at every
query point it visits, and then holds those densities in column `i`. -/
theorem evaluateDistributions_inner_ok {R E D : Type} (c : Collaborator R E D) (dist : D)
    (x : List R) (i remaining : Nat) :
    ∀ (j : Nat) (m : NumericMatrix R),
      (∀ k, j ≤ k → k < j + remaining → ∃ xk v, x[k]? = some xk ∧ c.pdf dist xk = .ok v) →
      ∃ m1, evaluateDistributions_inner c dist x i remaining j m = .ok m1 ∧
        (∀ j1 i1, ¬ (i1 = i ∧ j ≤ j1 ∧ j1 < j + remaining) → m1.cell j1 i1 = m.cell j1 i1) ∧
        (∀ k xk v, j ≤ k → k < j + remaining → x[k]? = some xk → c.pdf dist xk = .ok v →
          m1.cell k i = v) := by
  induction remaining with
  | zero =>
    intro j m _
    refine ⟨m, rfl, fun _ _ _ => rfl, ?_⟩
    intro k _ _ h1 h2
    omega
  | succ n ih =>
    intro j m hall
    obtain ⟨xj, v, hx, hv⟩ := hall j (Nat.le_refl j) (by omega)
    rw [evaluateDistributions_inner_succ c dist x i n j m hx, hv]
    obtain ⟨m1, hm1, hout, hin⟩ := ih (j + 1) (m.set j i v)
      (fun k h1 h2 => hall k (by omega) (by omega))
    refine ⟨m1, hm1, ?_, ?_⟩
    · intro j1 i1 hne
      rw [hout j1 i1 (by omega)]
      show (if j1 = j ∧ i1 = i then v else m.cell j1 i1) = m.cell j1 i1
      rw [if_neg (by omega)]
    · intro k xk w h1 h2 hxk hw
      by_cases hkj : k = j
      · subst hkj
        rw [hx] at hxk
        cases hxk
        rw [hv] at hw
        cases hw
        rw [hout k i (by omega)]
        show (if k = k ∧ i = i then v else m.cell k i) = v
        rw [if_pos ⟨rfl, rfl⟩]
      · exact hin k xk w (by omega) (by omega) hxk hw

theorem deref_live {E D : Type} {store : Store D} {addr : Nat} {d : D}
    (h : store[addr]? = some (Slot.live d)) : (deref store addr : Except (Fault E) D) = .ok d := by
  simp [deref, h]

theorem deref_dead {E D : Type} {store : Store D} {addr : Nat}
    (h : store[addr]? = some Slot.dead) :
    (deref store addr : Except (Fault E) D) = .error (.undefined .danglingHandle) := by
  simp [deref, h]

theorem evaluateDistributions_outer_succ {R E D : Type} (c : Collaborator R E D)
    (store : Store D) (distList : List SEXP) (x : List R) (n_x remaining i : Nat)
    (result : NumericMatrix R) {addr : Nat} (hs : distList[i]? = some (SEXP.extptr addr)) :
    evaluateDistributions_outer c store distList x n_x (remaining + 1) i result =
      (deref store addr).bind (fun dist =>
        (evaluateDistributions_inner c dist x i n_x 0 result).bind (fun result =>
          evaluateDistributions_outer c store distList x n_x remaining (i + 1) result)) := by
  rw [evaluateDistributions_outer, readAt_some hs]
  rfl

/-- The outer loop keeps the extents of the matrix. -/
theorem evaluateDistributions_outer_dims {R E D : Type} (c : Collaborator R E D)
    (store : Store D) (distList : List SEXP) (x : List R) (n_x remaining : Nat) :
    ∀ (i : Nat) (m m1 : NumericMatrix R),
      evaluateDistributions_outer c store distList x n_x remaining i m = .ok m1 →
      m1.nrow = m.nrow ∧ m1.ncol = m.ncol := by
  induction remaining with
  | zero =>
    intro i m m1 h
    rw [evaluateDistributions_outer] at h
    cases h
    exact ⟨rfl, rfl⟩
  | succ n ih =>
    intro i m m1 h
    cases hs : distList[i]? with
    | none =>
      rw [evaluateDistributions_outer, readAt_none hs] at h
      cases h
    | some s =>
      cases s with
      | null =>
        rw [evaluateDistributions_outer, readAt_some hs] at h
        cases h
      | extptr addr =>
        rw [evaluateDistributions_outer_succ c store distList x n_x n i m hs] at h
        cases hd : (deref store addr : Except (Fault E) D) with
        | error f =>
          rw [hd] at h
          cases h
        | ok d =>
          rw [hd] at h
          cases hin : evaluateDistributions_inner c d x i n_x 0 m with
          | error f =>
            simp only [Except.bind, hin] at h
            cases h
          | ok m2 =>
            simp only [Except.bind, hin] at h
            obtain ⟨h1, h2⟩ := evaluateDistributions_inner_dims c d x i n_x 0 m m2 hin
            obtain ⟨h3, h4⟩ := ih (i + 1) m2 m1 h
            exact ⟨h3.trans h1, h4.trans h2⟩

/-- The outer loop runs to its end when every handle it visits points to a
live object whose density the library has at each of the `n_x` query
points, and then holds those densities in the columns it visited. -/
theorem evaluateDistributions_outer_ok {R E D : Type} (c : Collaborator R E D)
    (store : Store D) (distList : List SEXP) (x : List R) (n_x remaining : Nat) :
    ∀ (i : Nat) (m : NumericMatrix R),
      (∀ k, i ≤ k → k < i + remaining → ∃ addr d,
        distList[k]? = some (SEXP.extptr addr) ∧ store[addr]? = some (Slot.live d) ∧
        ∀ j, j < n_x → ∃ xj v, x[j]? = some xj ∧ c.pdf d xj = .ok v) →
      ∃ m1, evaluateDistributions_outer c store distList x n_x remaining i m = .ok m1 ∧
        (∀ j1 i1, ¬ (i ≤ i1 ∧ i1 < i + remaining ∧ j1 < n_x) → m1.cell j1 i1 = m.cell j1 i1) ∧
        (∀ k addr d j xj v, i ≤ k → k < i + remaining →
          distList[k]? = some (SEXP.extptr addr) → store[addr]? = some (Slot.live d) →
          j < n_x → x[j]? = some xj → c.pdf d xj = .ok v → m1.cell j k = v) := by
  induction remaining with
  | zero =>
    intro i m _
    refine ⟨m, rfl, fun _ _ _ => rfl, ?_⟩
    intro k _ _ _ _ _ h1 h2
    omega
  | succ n ih =>
    intro i m hall
    obtain ⟨addr, d, hs, hd, hpdf⟩ := hall i (Nat.le_refl i) (by omega)
    rw [evaluateDistributions_outer_succ c store distList x n_x n i m hs, deref_live hd]
    obtain ⟨m2, hm2, hout2, hin2⟩ := evaluateDistributions_inner_ok c d x i n_x 0 m
      (fun k _ hk => hpdf k (by omega))
    simp only [Except.bind, hm2]
    obtain ⟨m1, hm1, hout, hin⟩ := ih (i + 1) m2
      (fun k h1 h2 => hall k (by omega) (by omega))
    refine ⟨m1, hm1, ?_, ?_⟩
    · intro j1 i1 hne
      rw [hout j1 i1 (by omega), hout2 j1 i1 (by omega)]
    · intro k addr1 d1 j xj v h1 h2 hs1 hd1 hj hxj hv
      by_cases hki : k = i
      · subst hki
        rw [hs] at hs1
        cases hs1
        rw [hd] at hd1
        cases hd1
        rw [hout j k (by omega)]
        exact hin2 j xj v (Nat.zero_le j) (by omega) hxj hv
      · exact hin k addr1 d1 j xj v (by omega) (by omega) hs1 hd1 hj hxj hv

/-- The outer loop has undefined behaviour when the first handle it visits
points to an object whose lifetime has ended. -/
theorem evaluateDistributions_outer_dangling {R E D : Type} (c : Collaborator R E D)
    (store : Store D) (distList : List SEXP) (x : List R) (n_x remaining i : Nat)
    (m : NumericMatrix R) (addr : Nat) (hs : distList[i]? = some (SEXP.extptr addr))
    (hd : store[addr]? = some Slot.dead) :
    evaluateDistributions_outer c store distList x n_x (remaining + 1) i m =
      .error (.undefined .danglingHandle) := by
  rw [evaluateDistributions_outer_succ c store distList x n_x remaining i m hs, deref_dead hd]
  rfl

/-! ## `createDistributionList` and `evaluateDistributions` -/

theorem createDistributionList_of_short {R E D : Type} (c : Collaborator R E D)
    (df ncp : List R) (store : Store D) (hn : df.length < 2 ^ 31) :
    createDistributionList c df ncp store =
      createDistributionList_loop c df ncp df.length 0
        (List.replicate df.length SEXP.null) store := by
  have hn1 : df.length < 2147483648 := by omega
  unfold createDistributionList
  simp only [if_neg (toInt_not_neg_of_lt hn1), toInt_toNat_of_lt hn1]

theorem createDistributionList_of_neg {R E D : Type} (c : Collaborator R E D)
    (df ncp : List R) (store : Store D) (n : Nat) (hlen : df.length = n)
    (hneg : toInt n < 0) :
    createDistributionList c df ncp store = .error (.host .negativeExtent) := by
  unfold createDistributionList
  simp only [hlen, if_pos hneg]

theorem evaluateDistributions_of_short {R E D : Type} [Zero R] (c : Collaborator R E D)
    (store : Store D) (distList : List SEXP) (x : List R)
    (hd : distList.length < 2 ^ 31) (hx : x.length < 2 ^ 31) :
    evaluateDistributions c store distList x =
      evaluateDistributions_outer c store distList x x.length distList.length 0
        (NumericMatrix.zeros x.length distList.length) := by
  have hd1 : distList.length < 2147483648 := by omega
  have hx1 : x.length < 2147483648 := by omega
  unfold evaluateDistributions
  simp only [toInt_toNat_of_lt hd1, toInt_toNat_of_lt hx1]
  rw [if_neg]
  intro h
  cases h with
  | inl h => exact toInt_not_neg_of_lt hx1 h
  | inr h => exact toInt_not_neg_of_lt hd1 h

/-- C1. `dnct_vec` fails with an invalid-argument error exactly when the
length of `x` differs from the length of `df` or of `ncp`. When it does, no
vector is returned and the library is not consulted: the outcome is the
same for every library and for every choice of the element values, also
values for which the library would fail. -/
theorem dnct_vec_invalidArgument_iff {R E D : Type} [Zero R] (c : Collaborator R E D)
    (x df ncp : List R) :
    ((∃ what, dnct_vec c x df ncp = .error (.invalidArgument what)) ↔
        (x.length ≠ df.length ∨ x.length ≠ ncp.length)) ∧
    ((x.length ≠ df.length ∨ x.length ≠ ncp.length) →
        (∀ r, dnct_vec c x df ncp ≠ .ok r) ∧
        ∀ (c1 : Collaborator R E D) (x1 df1 ncp1 : List R),
          x1.length = x.length → df1.length = df.length → ncp1.length = ncp.length →
          dnct_vec c1 x1 df1 ncp1 = dnct_vec c x df ncp) := by
  constructor
  · constructor
    · rintro ⟨what, h⟩
      by_contra hne
      have hdf : x.length = df.length := by
        by_contra h1
        exact hne (Or.inl h1)
      have hncp : x.length = ncp.length := by
        by_contra h1
        exact hne (Or.inr h1)
      rw [dnct_vec_of_match c x df ncp hdf hncp] at h
      by_cases hneg : toInt x.length < 0
      · rw [if_pos hneg] at h
        cases h
      · rw [if_neg hneg] at h
        rcases dnct_vec_loop_fault c x df ncp _ _ _ _ h with ⟨e, he⟩ | he
        · cases he
        · cases he
    · intro h
      exact ⟨_, dnct_vec_of_mismatch c x df ncp h⟩
  · intro h
    constructor
    · intro r hr
      rw [dnct_vec_of_mismatch c x df ncp h] at hr
      cases hr
    · intro c1 x1 df1 ncp1 hx1 hdf1 hncp1
      rw [dnct_vec_of_mismatch c x df ncp h,
        dnct_vec_of_mismatch c1 x1 df1 ncp1 (by rw [hx1, hdf1, hncp1]; exact h)]

/-- C1 at the input of the specification, `x = [1, 2]`, `df = [5]`,
`ncp = [0]`, and at `df = [-5]`, a value the sample library rejects. -/
theorem dnct_vec_invalidArgument_witness :
    (∃ what, dnct_vec sample [1, 2] [5] [0] = .error (.invalidArgument what)) ∧
    dnct_vec sample [1, 2] [-5] [0] = dnct_vec sample [1, 2] [5] [0] ∧
    dnct sample 1 (-5) 0 = .error (.collaborator .domain) :=
  ⟨(dnct_vec_invalidArgument_iff sample [1, 2] [5] [0]).1.2 (by decide),
    ((dnct_vec_invalidArgument_iff sample [1, 2] [5] [0]).2 (by decide)).2
      sample [1, 2] [-5] [0] rfl rfl rfl,
    rfl⟩

/-- The amended C2. For `x`, `df`, `ncp` of one length below `2^31`, when
every element has a density, `dnct_vec` returns a vector of that length
whose entry `i` is `dnct (x[i], df[i], ncp[i])`; three empty inputs give
the empty vector. -/
theorem dnct_vec_elementwise {R E D : Type} [Zero R] (c : Collaborator R E D)
    (x df ncp : List R) (hdf : x.length = df.length) (hncp : x.length = ncp.length)
    (hn : x.length < 2 ^ 31)
    (hok : ∀ (i : Nat) xi dfi ncpi, x[i]? = some xi → df[i]? = some dfi →
      ncp[i]? = some ncpi → ∃ v, dnct c xi dfi ncpi = .ok v) :
    (∃ r, dnct_vec c x df ncp = .ok r ∧ r.length = x.length ∧
      ∀ (i : Nat) xi dfi ncpi, x[i]? = some xi → df[i]? = some dfi → ncp[i]? = some ncpi →
        ∃ v, r[i]? = some v ∧ dnct c xi dfi ncpi = .ok v) ∧
    dnct_vec c [] [] [] = .ok [] := by
  refine ⟨?_, by rw [dnct_vec_of_short c [] [] [] rfl rfl (by simp)]; rfl⟩
  rw [dnct_vec_of_short c x df ncp hdf hncp hn]
  obtain ⟨r, hr, hlen, _, hin⟩ := dnct_vec_loop_ok c x df ncp x.length 0
    (List.replicate x.length 0) (by simp) (by
      intro k _ hk
      have hkx : k < x.length := by omega
      have hkdf : k < df.length := by omega
      have hkncp : k < ncp.length := by omega
      obtain ⟨v, hv⟩ := hok k x[k] df[k] ncp[k]
        (List.getElem?_eq_getElem hkx) (List.getElem?_eq_getElem hkdf)
        (List.getElem?_eq_getElem hkncp)
      exact ⟨_, _, _, v, List.getElem?_eq_getElem hkx, List.getElem?_eq_getElem hkdf,
        List.getElem?_eq_getElem hkncp, hv⟩)
  refine ⟨r, hr, by rw [hlen, List.length_replicate], ?_⟩
  intro i xi dfi ncpi hx hdfi hncpi
  have hi : i < x.length := (List.getElem?_eq_some_iff.mp hx).1
  exact hin i xi dfi ncpi (Nat.zero_le i) (by omega) hx hdfi hncpi

/-- The amended C2 on `x = [1, 2]`, `df = [5, 6]`, `ncp = [0, 1]`. -/
theorem dnct_vec_elementwise_witness :
    (∃ r, dnct_vec sample [1, 2] [5, 6] [0, 1] = .ok r ∧ r.length = 2 ∧
      ∀ (i : Nat) xi dfi ncpi, [1, 2][i]? = some xi → [5, 6][i]? = some dfi →
        [0, 1][i]? = some ncpi → ∃ v, r[i]? = some v ∧ dnct sample xi dfi ncpi = .ok v) ∧
    dnct_vec sample [] [] [] = .ok [] :=
  dnct_vec_elementwise sample [1, 2] [5, 6] [0, 1] rfl rfl (by decide) (by
    intro i xi dfi ncpi hx hdf hncp
    match i, hx, hdf, hncp with
    | 0, hx, hdf, hncp =>
      cases hx
      cases hdf
      cases hncp
      exact ⟨_, rfl⟩
    | 1, hx, hdf, hncp =>
      cases hx
      cases hdf
      cases hncp
      exact ⟨_, rfl⟩
    | n + 2, hx, _, _ => cases hx)

/-- C2 fails on long vectors. For three vectors of `2^32` elements, each
with a density, `int n = x.size()` is `0` and `dnct_vec` returns the empty
vector, not a vector of `2^32` entries. -/
theorem dnct_vec_long_vector_counterexample :
    dnct sample 1 5 0 = .ok 501 ∧
    dnct_vec sample (List.replicate 4294967296 1) (List.replicate 4294967296 5)
      (List.replicate 4294967296 0) = .ok [] ∧
    ¬ ∃ r, dnct_vec sample (List.replicate 4294967296 1) (List.replicate 4294967296 5)
        (List.replicate 4294967296 0) = .ok r ∧
      r.length = (List.replicate 4294967296 (1 : Int)).length := by
  have h : dnct_vec sample (List.replicate 4294967296 1) (List.replicate 4294967296 5)
      (List.replicate 4294967296 0) = .ok [] :=
    dnct_vec_of_wrap_zero sample _ _ _ 4294967296 (List.length_replicate _ _)
      (List.length_replicate _ _) (List.length_replicate _ _) toInt_two_pow_32
  refine ⟨rfl, h, ?_⟩
  rintro ⟨r, hr, hlen⟩
  rw [h] at hr
  cases hr
  rw [List.length_replicate] at hlen
  cases hlen

/-- C5 fails in two ways. The failure does not say which index failed: the
sample library gives one and the same failure when index 0 is the bad one
and when index 1 is. And on vectors of `2^32` elements, none of which has a
density, `dnct_vec` returns an empty vector instead of failing. -/
theorem dnct_vec_failure_index_counterexample :
    (dnct sample 0 (-1) 0 = .error (.collaborator .domain) ∧ dnct sample 0 5 0 = .ok 500 ∧
      dnct_vec sample [0, 0] [-1, 5] [0, 0] = .error (.collaborator .domain) ∧
      dnct_vec sample [0, 0] [5, -1] [0, 0] = .error (.collaborator .domain) ∧
      ¬ ∃ index : Except (Fault SampleError) (List Int) → Nat,
        index (dnct_vec sample [0, 0] [-1, 5] [0, 0]) = 0 ∧
        index (dnct_vec sample [0, 0] [5, -1] [0, 0]) = 1) ∧
    dnct_vec sample (List.replicate 4294967296 0) (List.replicate 4294967296 (-1))
      (List.replicate 4294967296 0) = .ok [] := by
  refine ⟨⟨rfl, rfl, rfl, rfl, ?_⟩, ?_⟩
  · rintro ⟨index, h0, h1⟩
    have h : dnct_vec sample [0, 0] [-1, 5] [0, 0] = dnct_vec sample [0, 0] [5, -1] [0, 0] :=
      rfl
    rw [h, h1] at h0
    cases h0
  · exact dnct_vec_of_wrap_zero sample _ _ _ 4294967296 (List.length_replicate _ _)
      (List.length_replicate _ _) (List.length_replicate _ _) toInt_two_pow_32

/-- The amended C5. For `x`, `df`, `ncp` of one length below `2^31`, when
some element `i` has no density, `dnct_vec` fails as a whole: it returns no
vector, and its failure is the failure of the library on the first element
without a density; the failure carries nothing else. -/
theorem dnct_vec_fails_whole {R E D : Type} [Zero R] (c : Collaborator R E D)
    (x df ncp : List R) (hdf : x.length = df.length) (hncp : x.length = ncp.length)
    (hn : x.length < 2 ^ 31) (i : Nat) (xi dfi ncpi : R) (g : Fault E)
    (hxi : x[i]? = some xi) (hdfi : df[i]? = some dfi) (hncpi : ncp[i]? = some ncpi)
    (hfail : dnct c xi dfi ncpi = .error g) :
    (∀ r, dnct_vec c x df ncp ≠ .ok r) ∧
    ∃ (k : Nat) (xk dfk ncpk : R) (e : E), k ≤ i ∧
      x[k]? = some xk ∧ df[k]? = some dfk ∧ ncp[k]? = some ncpk ∧
      dnct c xk dfk ncpk = .error (.collaborator e) ∧
      (∀ (m : Nat) xm dfm ncpm, m < k → x[m]? = some xm → df[m]? = some dfm →
        ncp[m]? = some ncpm → ∃ v, dnct c xm dfm ncpm = .ok v) ∧
      dnct_vec c x df ncp = .error (.collaborator e) := by
  obtain ⟨k, xk, dfk, ncpk, f, hk, hxk, hdfk, hncpk, hf, hbefore⟩ :=
    exists_first_failure c x df ncp hdf hncp i xi dfi ncpi g hxi hdfi hncpi hfail
  have hv : dnct_vec c x df ncp = .error f :=
    dnct_vec_error_of_first_failure c x df ncp hdf hncp hn k f hbefore
      ⟨xk, dfk, ncpk, hxk, hdfk, hncpk, hf⟩
  obtain ⟨e, he⟩ := dnct_error_collaborator c xk dfk ncpk f hf
  subst he
  refine ⟨?_, k, xk, dfk, ncpk, e, hk, hxk, hdfk, hncpk, hf, ?_, hv⟩
  · intro r hr
    rw [hv] at hr
    cases hr
  · intro m xm dfm ncpm hm hxm hdfm hncpm
    obtain ⟨xm1, dfm1, ncpm1, v, h1, h2, h3, h4⟩ := hbefore m hm
    rw [hxm] at h1
    rw [hdfm] at h2
    rw [hncpm] at h3
    cases h1
    cases h2
    cases h3
    exact ⟨v, h4⟩

/-- The amended C5 on `x = [0, 0]`, `df = [5, -1]`, `ncp = [0, 0]`, whose
element 1 has no density. -/
theorem dnct_vec_fails_whole_witness :
    (∀ r, dnct_vec sample [0, 0] [5, -1] [0, 0] ≠ .ok r) ∧
    ∃ (k : Nat) (xk dfk ncpk : Int) (e : SampleError), k ≤ 1 ∧
      [0, 0][k]? = some xk ∧ [5, -1][k]? = some dfk ∧ [0, 0][k]? = some ncpk ∧
      dnct sample xk dfk ncpk = .error (.collaborator e) ∧
      (∀ (m : Nat) xm dfm ncpm, m < k → [0, 0][m]? = some xm → [5, -1][m]? = some dfm →
        [0, 0][m]? = some ncpm → ∃ v, dnct sample xm dfm ncpm = .ok v) ∧
      dnct_vec sample [0, 0] [5, -1] [0, 0] = .error (.collaborator e) :=
  dnct_vec_fails_whole sample [0, 0] [5, -1] [0, 0] rfl rfl (by decide) 1 0 (-1) 0
    (.collaborator .domain) (by rfl) (by rfl) (by rfl) (by rfl)

/-- C10 fails on long vectors. With `2^32 + 1` elements of which element 0
has a density and element 1 has none, `int n = x.size()` is `1`: the loop
stops after element 0 and `dnct_vec` returns a vector of one entry instead
of failing with the failure of element 1. -/
theorem dnct_vec_first_failure_counterexample :
    dnct sample 0 5 0 = .ok 500 ∧
    (5 :: List.replicate 4294967296 (-1 : Int))[1]? = some (-1) ∧
    dnct sample 0 (-1) 0 = .error (.collaborator .domain) ∧
    dnct_vec sample (0 :: List.replicate 4294967296 0) (5 :: List.replicate 4294967296 (-1))
      (0 :: List.replicate 4294967296 0) = .ok [500] := by
  refine ⟨rfl, ?_, rfl, ?_⟩
  · rw [List.getElem?_cons_succ, List.getElem?_replicate_of_lt (by norm_num)]
  · exact dnct_vec_of_wrap_one sample 0 5 0 500 _ _ _ 4294967296 (List.length_replicate _ _)
      (List.length_replicate _ _) (List.length_replicate _ _) toInt_two_pow_32_succ rfl

/-- The amended C10. For `x`, `df`, `ncp` of one length below `2^31`, when
element `k` has no density and every element before it has one, `dnct_vec`
fails with the failure of `dnct (x[k], df[k], ncp[k])`; so does every other
input of one length below `2^31` that has the same first `k + 1` elements,
whatever comes after them. -/
theorem dnct_vec_first_failure {R E D : Type} [Zero R] (c : Collaborator R E D)
    (x df ncp : List R) (hdf : x.length = df.length) (hncp : x.length = ncp.length)
    (hn : x.length < 2 ^ 31) (k : Nat) (xk dfk ncpk : R) (f : Fault E)
    (hxk : x[k]? = some xk) (hdfk : df[k]? = some dfk) (hncpk : ncp[k]? = some ncpk)
    (hfail : dnct c xk dfk ncpk = .error f)
    (hfirst : ∀ (m : Nat) xm dfm ncpm, m < k → x[m]? = some xm → df[m]? = some dfm →
      ncp[m]? = some ncpm → ∃ v, dnct c xm dfm ncpm = .ok v) :
    dnct_vec c x df ncp = .error f ∧
    ∀ (x1 df1 ncp1 : List R), x1.length = df1.length → x1.length = ncp1.length →
      x1.length < 2 ^ 31 → x1.take (k + 1) = x.take (k + 1) →
      df1.take (k + 1) = df.take (k + 1) → ncp1.take (k + 1) = ncp.take (k + 1) →
      dnct_vec c x1 df1 ncp1 = .error f := by
  have hk : k < x.length := (List.getElem?_eq_some_iff.mp hxk).1
  have hbefore : ∀ m, m < k → ∃ xm dfm ncpm v,
      x[m]? = some xm ∧ df[m]? = some dfm ∧ ncp[m]? = some ncpm ∧
        dnct c xm dfm ncpm = .ok v := by
    intro m hm
    have hmx : m < x.length := by omega
    have hmdf : m < df.length := by omega
    have hmncp : m < ncp.length := by omega
    obtain ⟨v, hv⟩ := hfirst m x[m] df[m] ncp[m] hm (List.getElem?_eq_getElem hmx)
      (List.getElem?_eq_getElem hmdf) (List.getElem?_eq_getElem hmncp)
    exact ⟨_, _, _, v, List.getElem?_eq_getElem hmx, List.getElem?_eq_getElem hmdf,
      List.getElem?_eq_getElem hmncp, hv⟩
  refine ⟨dnct_vec_error_of_first_failure c x df ncp hdf hncp hn k f hbefore
    ⟨xk, dfk, ncpk, hxk, hdfk, hncpk, hfail⟩, ?_⟩
  intro x1 df1 ncp1 hdf1 hncp1 hn1 hx1 hdfe hncpe
  have same : ∀ (a b : List R), a.take (k + 1) = b.take (k + 1) → ∀ m, m ≤ k →
      a[m]? = b[m]? := by
    intro a b hab m hm
    rw [← List.getElem?_take_of_lt (show m < k + 1 by omega), hab,
      List.getElem?_take_of_lt (show m < k + 1 by omega)]
  refine dnct_vec_error_of_first_failure c x1 df1 ncp1 hdf1 hncp1 hn1 k f ?_ ?_
  · intro m hm
    obtain ⟨xm, dfm, ncpm, v, h1, h2, h3, h4⟩ := hbefore m hm
    refine ⟨xm, dfm, ncpm, v, ?_, ?_, ?_, h4⟩
    · rw [same x1 x hx1 m (by omega)]
      exact h1
    · rw [same df1 df hdfe m (by omega)]
      exact h2
    · rw [same ncp1 ncp hncpe m (by omega)]
      exact h3
  · refine ⟨xk, dfk, ncpk, ?_, ?_, ?_, hfail⟩
    · rw [same x1 x hx1 k (Nat.le_refl k)]
      exact hxk
    · rw [same df1 df hdfe k (Nat.le_refl k)]
      exact hdfk
    · rw [same ncp1 ncp hncpe k (Nat.le_refl k)]
      exact hncpk

/-- The amended C10 on `x = [0, 0, 0]`, `df = [5, -1, -2]`, `ncp = [0, 0, 0]`:
element 1 is the first without a density, and the input `[0, 0]`,
`[5, -1]`, `[0, 0]`, which stops after it, fails in the same way. -/
theorem dnct_vec_first_failure_witness :
    dnct_vec sample [0, 0, 0] [5, -1, -2] [0, 0, 0] = .error (.collaborator .domain) ∧
    dnct_vec sample [0, 0] [5, -1] [0, 0] = .error (.collaborator .domain) :=
  have h := dnct_vec_first_failure sample [0, 0, 0] [5, -1, -2] [0, 0, 0] rfl rfl
    (by decide) 1 0 (-1) 0 (.collaborator .domain) (by rfl) (by rfl) (by rfl) (by rfl) (by
      intro m xm dfm ncpm hm hx hdf hncp
      match m, hm, hx, hdf, hncp with
      | 0, _, hx, hdf, hncp =>
        cases hx
        cases hdf
        cases hncp
        exact ⟨_, rfl⟩)
  ⟨h.1, h.2 [0, 0] [5, -1] [0, 0] rfl rfl (by decide) rfl rfl rfl⟩

/-- C6. `dnct`, `pnct` and `qnct` return the value the library has for
`density (df, ncp, a)`, `cumulative (df, ncp, a)` and `quantile (df, ncp, a)`
when it has one, and fail with the failure of the library when it fails,
for every `a`, `df` and `ncp`: the wrappers check nothing themselves, and
`qnct` passes every `p` on. -/
theorem scalar_wrappers_delegate {R E D : Type} (c : Collaborator R E D) (a df ncp : R) :
    (∀ v, c.density df ncp a = .ok v → dnct c a df ncp = .ok v) ∧
    (∀ e, c.density df ncp a = .error e → dnct c a df ncp = .error (.collaborator e)) ∧
    (∀ v, c.cumulative df ncp a = .ok v → pnct c a df ncp = .ok v) ∧
    (∀ e, c.cumulative df ncp a = .error e → pnct c a df ncp = .error (.collaborator e)) ∧
    (∀ v, c.inverse df ncp a = .ok v → qnct c a df ncp = .ok v) ∧
    (∀ e, c.inverse df ncp a = .error e → qnct c a df ncp = .error (.collaborator e)) := by
  unfold Collaborator.density Collaborator.cumulative Collaborator.inverse dnct pnct qnct
  cases hc : c.construct df ncp with
  | error e0 =>
    refine ⟨?_, ?_, ?_, ?_, ?_, ?_⟩ <;> intro w hw <;> cases hw <;> rfl
  | ok d =>
    refine ⟨?_, ?_, ?_, ?_, ?_, ?_⟩ <;> intro w hw <;>
      simp only [liftLib, bind, Except.bind] at hw ⊢ <;> rw [hw]

/-- C6 on the sample library: a value is handed back as it is, and the
library's rejection of `df = -1` and of `p = 2` is the failure of the call. -/
theorem scalar_wrappers_delegate_witness :
    dnct sample 1 5 0 = .ok 501 ∧
    pnct sample 1 (-1) 0 = .error (.collaborator .domain) ∧
    qnct sample 2 5 0 = .error (.collaborator .domain) :=
  ⟨(scalar_wrappers_delegate sample 1 5 0).1 501 rfl,
    (scalar_wrappers_delegate sample 1 (-1) 0).2.2.2.1 .domain rfl,
    (scalar_wrappers_delegate sample 2 5 0).2.2.2.2.2 .domain rfl⟩

/-- What `createDistributionList` returns for fewer than `2^31` parameters:
one handle per parameter, each the address of an object of the returned
store whose lifetime has ended. -/
theorem createDistributionList_result {R E D : Type} (c : Collaborator R E D)
    (df ncp : List R) (store : Store D) (dl : List SEXP) (st : Store D)
    (hn : df.length < 2 ^ 31) (h : createDistributionList c df ncp store = .ok (dl, st)) :
    dl.length = df.length ∧
    ∀ i, i < df.length →
      dl[i]? = some (SEXP.extptr (store.length + i)) ∧ st[store.length + i]? = some Slot.dead := by
  rw [createDistributionList_of_short c df ncp store hn] at h
  obtain ⟨hst, hdl, _, hin, _⟩ := createDistributionList_loop_inv c df ncp df.length 0
    (List.replicate df.length SEXP.null) store dl st (by simp) h
  refine ⟨by rw [hdl, List.length_replicate], ?_⟩
  intro i hi
  refine ⟨by rw [hin i (Nat.zero_le i) (by omega), Nat.sub_zero], ?_⟩
  rw [hst, List.getElem?_append_right (by omega), Nat.add_sub_cancel_left,
    List.getElem?_replicate_of_lt hi]

/-- C8 fails on the code. After `createDistributionList` has returned, for
fewer than `2^31` parameters, every handle of the collection is the address
of an object whose lifetime has ended, and an indirection through it is
undefined. -/
theorem createDistributionList_handles_dead {R E D : Type} (c : Collaborator R E D)
    (df ncp : List R) (store : Store D) (dl : List SEXP) (st : Store D)
    (hn : df.length < 2 ^ 31) (h : createDistributionList c df ncp store = .ok (dl, st)) :
    dl.length = df.length ∧
    ∀ i, i < df.length → ∃ addr, dl[i]? = some (SEXP.extptr addr) ∧
      st[addr]? = some Slot.dead ∧
      (deref st addr : Except (Fault E) D) = .error (.undefined .danglingHandle) := by
  obtain ⟨hlen, hall⟩ := createDistributionList_result c df ncp store dl st hn h
  refine ⟨hlen, ?_⟩
  intro i hi
  obtain ⟨h1, h2⟩ := hall i hi
  exact ⟨_, h1, h2, deref_dead h2⟩

/-- C8 on `df = [5]`, `ncp = [0]`: the one handle returned points to a dead
object. -/
theorem createDistributionList_handles_dead_witness :
    createDistributionList sample [5] [0] [] = .ok ([SEXP.extptr 0], [Slot.dead]) ∧
    ∀ i, i < 1 → ∃ addr, [SEXP.extptr 0][i]? = some (SEXP.extptr addr) ∧
      [Slot.dead (D := Int × Int)][addr]? = some Slot.dead ∧
      (deref [Slot.dead] addr : Except (Fault SampleError) (Int × Int)) =
        .error (.undefined .danglingHandle) :=
  ⟨rfl, (createDistributionList_handles_dead sample [5] [0] [] [SEXP.extptr 0] [Slot.dead]
    (by decide) rfl).2⟩

/-- C3 fails on the code. For between `1` and `2^31 - 1` parameters and
fewer than `2^31` query points, evaluating the collection that
`createDistributionList` returned does not give a matrix: the first handle
is followed to an object whose lifetime has ended. -/
theorem evaluateDistributions_of_created {R E D : Type} [Zero R] (c : Collaborator R E D)
    (df ncp x : List R) (store : Store D) (dl : List SEXP) (st : Store D)
    (hpos : 0 < df.length) (hn : df.length < 2 ^ 31) (hx : x.length < 2 ^ 31)
    (h : createDistributionList c df ncp store = .ok (dl, st)) :
    evaluateDistributions c st dl x = .error (.undefined .danglingHandle) := by
  obtain ⟨hlen, hall⟩ := createDistributionList_result c df ncp store dl st hn h
  obtain ⟨h1, h2⟩ := hall 0 hpos
  rw [evaluateDistributions_of_short c st dl x (by omega) hx]
  obtain ⟨n, hn1⟩ : ∃ n, dl.length = n + 1 := ⟨dl.length - 1, by omega⟩
  rw [hn1]
  exact evaluateDistributions_outer_dangling c st dl x x.length n 0 _ _ h1 h2

/-- C3 at the input of the specification, `df = [5, 10]`, `ncp = [0, 1]`,
`x = [0, 1, 2]`: the scalar path has a value for cell `(0, 0)`, the batch
path has no matrix. -/
theorem evaluateDistributions_of_created_witness :
    createDistributionList sample [5, 10] [0, 1] [] =
      .ok ([SEXP.extptr 0, SEXP.extptr 1], [Slot.dead, Slot.dead]) ∧
    dnct sample 0 5 0 = .ok 500 ∧
    evaluateDistributions sample [Slot.dead, Slot.dead] [SEXP.extptr 0, SEXP.extptr 1]
      [0, 1, 2] = .error (.undefined .danglingHandle) :=
  ⟨rfl, rfl, evaluateDistributions_of_created sample [5, 10] [0, 1] [0, 1, 2] []
    [SEXP.extptr 0, SEXP.extptr 1] [Slot.dead, Slot.dead] (by decide) (by decide)
    (by decide) rfl⟩

/-- C4 fails on the code. `createDistributionList` never fails with an
invalid-argument error. With `df = [5]`, `ncp = [0, 1]` it returns a
collection of one handle and ignores the second `ncp`; with `df = [5, 6]`,
`ncp = [0]` it reads `ncp[1]` past the end. -/
theorem createDistributionList_no_length_check {R E D : Type} (c : Collaborator R E D)
    (df ncp : List R) (store : Store D) :
    (∀ what, createDistributionList c df ncp store ≠ .error (.invalidArgument what)) ∧
    createDistributionList sample [5] [0, 1] [] = .ok ([SEXP.extptr 0], [Slot.dead]) ∧
    createDistributionList sample [5, 6] [0] [] = .error (.undefined .outOfBounds) := by
  refine ⟨?_, rfl, rfl⟩
  intro what h
  unfold createDistributionList at h
  by_cases hneg : toInt df.length < 0
  · simp only [if_pos hneg] at h
    cases h
  · simp only [if_neg hneg] at h
    rcases createDistributionList_loop_fault c df ncp _ _ _ _ _ h with ⟨e, he⟩ | he
    · cases he
    · cases he

/-- C7 fails in two ways. With the sample library, whose constructor rejects
`df = -1`, `createDistributionList` fails at once on `df = [-1]`,
`ncp = [0]`. And with `2^31` parameters that the constructor accepts,
`int n = df.size()` is negative and no collection is returned. -/
theorem createDistributionList_fails_counterexample :
    createDistributionList sample [-1] [0] [] = .error (.collaborator .domain) ∧
    sample.construct 5 0 = .ok (5, 0) ∧
    createDistributionList sample (List.replicate 2147483648 5) (List.replicate 2147483648 0)
      [] = .error (.host .negativeExtent) :=
  ⟨rfl, rfl, createDistributionList_of_neg sample _ _ [] 2147483648
    (List.length_replicate _ _) toInt_two_pow_31⟩

/-- The amended C7. `createDistributionList` checks nothing itself. For
`df` and `ncp` of one length below `2^31` it returns a collection exactly
when the constructor of the library accepts every pair `(df[i], ncp[i])`;
the collection then has one handle per pair; and when the constructor
rejects pair `k` after accepting the pairs before it, the call fails with
the failure of the constructor on pair `k`. -/
theorem createDistributionList_succeeds_iff {R E D : Type} (c : Collaborator R E D)
    (df ncp : List R) (store : Store D) (hlen : df.length = ncp.length)
    (hn : df.length < 2 ^ 31) :
    ((∃ dl st, createDistributionList c df ncp store = .ok (dl, st)) ↔
      ∀ (i : Nat) dfi ncpi, df[i]? = some dfi → ncp[i]? = some ncpi →
        ∃ d, c.construct dfi ncpi = .ok d) ∧
    (∀ dl st, createDistributionList c df ncp store = .ok (dl, st) →
      dl.length = df.length) ∧
    (∀ (k : Nat) dfk ncpk e, df[k]? = some dfk → ncp[k]? = some ncpk →
      c.construct dfk ncpk = .error e →
      (∀ (m : Nat) dfm ncpm, m < k → df[m]? = some dfm → ncp[m]? = some ncpm →
        ∃ d, c.construct dfm ncpm = .ok d) →
      createDistributionList c df ncp store = .error (.collaborator e)) := by
  refine ⟨⟨?_, ?_⟩, ?_, ?_⟩
  · rintro ⟨dl, st, h⟩ i dfi ncpi hdfi hncpi
    rw [createDistributionList_of_short c df ncp store hn] at h
    obtain ⟨_, _, _, _, hcons⟩ := createDistributionList_loop_inv c df ncp df.length 0
      (List.replicate df.length SEXP.null) store dl st (by simp) h
    have hi : i < df.length := (List.getElem?_eq_some_iff.mp hdfi).1
    obtain ⟨dfk, ncpk, d, h1, h2, h3⟩ := hcons i (Nat.zero_le i) (by omega)
    rw [hdfi] at h1
    rw [hncpi] at h2
    cases h1
    cases h2
    exact ⟨d, h3⟩
  · intro hall
    rw [createDistributionList_of_short c df ncp store hn]
    apply createDistributionList_loop_ok
    intro k _ hk
    have hkdf : k < df.length := by omega
    have hkncp : k < ncp.length := by omega
    obtain ⟨d, hd⟩ := hall k df[k] ncp[k] (List.getElem?_eq_getElem hkdf)
      (List.getElem?_eq_getElem hkncp)
    exact ⟨_, _, d, List.getElem?_eq_getElem hkdf, List.getElem?_eq_getElem hkncp, hd⟩
  · intro dl st h
    exact (createDistributionList_result c df ncp store dl st hn h).1
  · intro k dfk ncpk e hdfk hncpk he hbefore
    rw [createDistributionList_of_short c df ncp store hn]
    have hk : k < df.length := (List.getElem?_eq_some_iff.mp hdfk).1
    refine createDistributionList_loop_error c df ncp df.length 0 _ store k e
      (Nat.zero_le k) (by omega) ?_ ⟨dfk, ncpk, hdfk, hncpk, he⟩
    intro m _ hm
    have hmdf : m < df.length := by omega
    have hmncp : m < ncp.length := by omega
    obtain ⟨d, hd⟩ := hbefore m df[m] ncp[m] hm (List.getElem?_eq_getElem hmdf)
      (List.getElem?_eq_getElem hmncp)
    exact ⟨_, _, d, List.getElem?_eq_getElem hmdf, List.getElem?_eq_getElem hmncp, hd⟩

/-- The amended C7 on `df = [5, -1]`, `ncp = [0, 0]` with the sample
library: the constructor rejects pair 1, and so does the call. -/
theorem createDistributionList_succeeds_iff_witness :
    createDistributionList sample [5, -1] [0, 0] [] = .error (.collaborator .domain) :=
  (createDistributionList_succeeds_iff sample [5, -1] [0, 0] [] rfl (by decide)).2.2
    1 (-1) 0 .domain (by rfl) (by rfl) (by rfl) (by
      intro m dfm ncpm hm hdf hncp
      match m, hm, hdf, hncp with
      | 0, _, hdf, hncp =>
        cases hdf
        cases hncp
        exact ⟨_, rfl⟩)

/-- When `int n_x = x.size()` is `0` and the collection is empty,
`evaluateDistributions` returns the matrix without rows and columns. -/
theorem evaluateDistributions_of_wrap_zero {R E D : Type} [Zero R] (c : Collaborator R E D)
    (store : Store D) (x : List R) (n : Nat) (hx : x.length = n)
    (hwrap : toInt n = ((0 : Nat) : Int)) :
    evaluateDistributions c store [] x = .ok (NumericMatrix.zeros 0 0) := by
  have h0 : toInt ([] : List SEXP).length = ((0 : Nat) : Int) := toInt_of_lt (by simp)
  unfold evaluateDistributions
  simp only [hx, hwrap, h0]
  rfl

/-- C9 fails on long inputs. For an empty collection and `2^32` query
points the evaluation succeeds, but `int n_x = x.size()` is `0` and the
matrix returned has no row, not `2^32` rows. -/
theorem evaluateDistributions_dims_counterexample :
    ∃ m, evaluateDistributions sample [] [] (List.replicate 4294967296 0) = .ok m ∧
      m.nrow = 0 ∧ (List.replicate 4294967296 (0 : Int)).length = 4294967296 :=
  ⟨_, evaluateDistributions_of_wrap_zero sample [] _ 4294967296 (List.length_replicate _ _)
    toInt_two_pow_32, rfl, List.length_replicate _ _⟩

/-- On fewer than `2^31` handles and query points, `evaluateDistributions`
returns a matrix, holding the densities, when every handle points to a live
object that has a density at every query point. -/
theorem evaluateDistributions_live {R E D : Type} [Zero R] (c : Collaborator R E D)
    (store : Store D) (distList : List SEXP) (x : List R)
    (hd : distList.length < 2 ^ 31) (hx : x.length < 2 ^ 31)
    (hall : ∀ (i : Nat) s, distList[i]? = some s → ∃ addr d, s = SEXP.extptr addr ∧
      store[addr]? = some (Slot.live d) ∧
      ∀ (j : Nat) xj, x[j]? = some xj → ∃ v, c.pdf d xj = .ok v) :
    ∃ m, evaluateDistributions c store distList x = .ok m ∧
      ∀ (i j : Nat) addr d xj v, distList[i]? = some (SEXP.extptr addr) →
        store[addr]? = some (Slot.live d) → x[j]? = some xj → c.pdf d xj = .ok v →
        m.cell j i = v := by
  obtain ⟨m, hm, _, hin⟩ := evaluateDistributions_outer_ok c store distList x x.length
    distList.length 0 (NumericMatrix.zeros x.length distList.length) (by
      intro k _ hk
      have hk1 : k < distList.length := by omega
      obtain ⟨addr, d, hs, hlive, hpdf⟩ := hall k distList[k] (List.getElem?_eq_getElem hk1)
      refine ⟨addr, d, by rw [List.getElem?_eq_getElem hk1, hs], hlive, ?_⟩
      intro j hj
      obtain ⟨v, hv⟩ := hpdf j x[j] (List.getElem?_eq_getElem hj)
      exact ⟨_, v, List.getElem?_eq_getElem hj, hv⟩)
  refine ⟨m, by rw [evaluateDistributions_of_short c store distList x hd hx]; exact hm, ?_⟩
  intro i j addr d xj v hs hlive hxj hv
  have hi : i < distList.length := (List.getElem?_eq_some_iff.mp hs).1
  have hj : j < x.length := (List.getElem?_eq_some_iff.mp hxj).1
  exact hin i addr d j xj v (Nat.zero_le i) (by omega) hs hlive hj hxj hv

/-- On fewer than `2^31` handles and query points, a matrix returned by
`evaluateDistributions` has one row per query point and one column per
handle. -/
theorem evaluateDistributions_extents {R E D : Type} [Zero R] (c : Collaborator R E D)
    (store : Store D) (distList : List SEXP) (x : List R)
    (hd : distList.length < 2 ^ 31) (hx : x.length < 2 ^ 31) (m : NumericMatrix R)
    (h : evaluateDistributions c store distList x = .ok m) :
    m.nrow = x.length ∧ m.ncol = distList.length := by
  rw [evaluateDistributions_of_short c store distList x hd hx] at h
  exact evaluateDistributions_outer_dims c store distList x x.length distList.length 0 _ m h

/-- The amended C9. For fewer than `2^31` handles and fewer than `2^31`
query points: a matrix that `evaluateDistributions` returns has `len(x)`
rows and `len(collection)` columns; and it returns one for every collection
(a list of handles that each point to a live distribution, the invariant of
a collection) whose distributions have a density at every query point, so
for an empty `x` and for an empty collection; cell `(j, i)` of that matrix
is the density of distribution `i` at `x[j]`. -/
theorem evaluateDistributions_dims {R E D : Type} [Zero R] (c : Collaborator R E D)
    (store : Store D) (distList : List SEXP) (x : List R)
    (hd : distList.length < 2 ^ 31) (hx : x.length < 2 ^ 31) :
    (∀ m, evaluateDistributions c store distList x = .ok m →
      m.nrow = x.length ∧ m.ncol = distList.length) ∧
    ((∀ (i : Nat) s, distList[i]? = some s → ∃ addr d, s = SEXP.extptr addr ∧
        store[addr]? = some (Slot.live d) ∧
        ∀ (j : Nat) xj, x[j]? = some xj → ∃ v, c.pdf d xj = .ok v) →
      ∃ m, evaluateDistributions c store distList x = .ok m ∧
        m.nrow = x.length ∧ m.ncol = distList.length ∧
        ∀ (i j : Nat) addr d xj v, distList[i]? = some (SEXP.extptr addr) →
          store[addr]? = some (Slot.live d) → x[j]? = some xj → c.pdf d xj = .ok v →
          m.cell j i = v) := by
  constructor
  · intro m h
    exact evaluateDistributions_extents c store distList x hd hx m h
  · intro hall
    obtain ⟨m, hm, hcell⟩ := evaluateDistributions_live c store distList x hd hx hall
    obtain ⟨hr, hc⟩ := evaluateDistributions_extents c store distList x hd hx m hm
    exact ⟨m, hm, hr, hc, hcell⟩

theorem dnct_of_construct {R E D : Type} (c : Collaborator R E D) (x df ncp : R) (d : D)
    (hc : c.construct df ncp = .ok d) : dnct c x df ncp = liftLib (c.pdf d x) := by
  unfold dnct
  rw [hc]
  rfl

/-- The batch path agrees with the scalar path on a collection that owns
its distributions. When handle `i` points to a live object constructed from
`(df[i], ncp[i])`, for fewer than `2^31` handles and query points, each with
a density, `evaluateDistributions` returns a matrix of `len(x)` rows and
`len(df)` columns whose cell `(j, i)` is `dnct (x[j], df[i], ncp[i])`. -/
theorem evaluateDistributions_agrees_with_dnct {R E D : Type} [Zero R]
    (c : Collaborator R E D) (store : Store D) (distList : List SEXP) (df ncp x : List R)
    (hd : distList.length < 2 ^ 31) (hx : x.length < 2 ^ 31)
    (hlen : distList.length = df.length) (hlen2 : df.length = ncp.length)
    (hown : ∀ (i : Nat) dfi ncpi, df[i]? = some dfi → ncp[i]? = some ncpi →
      ∃ addr d, distList[i]? = some (SEXP.extptr addr) ∧
        store[addr]? = some (Slot.live d) ∧ c.construct dfi ncpi = .ok d)
    (hok : ∀ (i j : Nat) dfi ncpi xj, df[i]? = some dfi → ncp[i]? = some ncpi →
      x[j]? = some xj → ∃ v, dnct c xj dfi ncpi = .ok v) :
    ∃ m, evaluateDistributions c store distList x = .ok m ∧
      m.nrow = x.length ∧ m.ncol = df.length ∧
      ∀ (i j : Nat) dfi ncpi xj, df[i]? = some dfi → ncp[i]? = some ncpi →
        x[j]? = some xj → dnct c xj dfi ncpi = .ok (m.cell j i) := by
  obtain ⟨m, hm, hcell⟩ :=
    evaluateDistributions_live c store distList x hd hx (by
      intro i s hs
      have hi : i < distList.length := (List.getElem?_eq_some_iff.mp hs).1
      have hidf : i < df.length := by omega
      have hincp : i < ncp.length := by omega
      obtain ⟨addr, d, h1, h2, h3⟩ := hown i df[i] ncp[i] (List.getElem?_eq_getElem hidf)
        (List.getElem?_eq_getElem hincp)
      rw [hs] at h1
      cases h1
      refine ⟨addr, d, rfl, h2, ?_⟩
      intro j xj hxj
      obtain ⟨v, hv⟩ := hok i j df[i] ncp[i] xj (List.getElem?_eq_getElem hidf)
        (List.getElem?_eq_getElem hincp) hxj
      rw [dnct_of_construct c xj df[i] ncp[i] d h3] at hv
      cases hp : c.pdf d xj with
      | error e =>
        rw [hp] at hv
        cases hv
      | ok w => exact ⟨w, rfl⟩)
  obtain ⟨hr, hc⟩ := evaluateDistributions_extents c store distList x hd hx m hm
  refine ⟨m, hm, hr, by rw [hc, hlen], ?_⟩
  intro i j dfi ncpi xj hdfi hncpi hxj
  obtain ⟨addr, d, h1, h2, h3⟩ := hown i dfi ncpi hdfi hncpi
  obtain ⟨v, hv⟩ := hok i j dfi ncpi xj hdfi hncpi hxj
  rw [dnct_of_construct c xj dfi ncpi d h3] at hv ⊢
  cases hp : c.pdf d xj with
  | error e =>
    rw [hp] at hv
    cases hv
  | ok w =>
    rw [hcell i j addr d xj w h1 h2 hxj hp]
    rfl

/-- The agreement of the two paths on the input of the specification,
`df = [5, 10]`, `ncp = [0, 1]`, `x = [0, 1, 2]`, over two live objects. -/
theorem evaluateDistributions_agrees_with_dnct_witness :
    ∃ m, evaluateDistributions sample [Slot.live (5, 0), Slot.live (10, 1)]
        [SEXP.extptr 0, SEXP.extptr 1] [0, 1, 2] = .ok m ∧
      m.nrow = 3 ∧ m.ncol = 2 ∧ dnct sample 2 10 1 = .ok (m.cell 2 1) := by
  obtain ⟨m, hm, hr, hc, hcell⟩ :=
    evaluateDistributions_agrees_with_dnct sample [Slot.live (5, 0), Slot.live (10, 1)]
      [SEXP.extptr 0, SEXP.extptr 1] [5, 10] [0, 1] [0, 1, 2] (by decide) (by decide) rfl rfl
      (by
        intro i dfi ncpi hdf hncp
        match i, hdf, hncp with
        | 0, hdf, hncp =>
          cases hdf
          cases hncp
          exact ⟨0, (5, 0), rfl, rfl, rfl⟩
        | 1, hdf, hncp =>
          cases hdf
          cases hncp
          exact ⟨1, (10, 1), rfl, rfl, rfl⟩
        | n + 2, hdf, _ => cases hdf)
      (by
        intro i j dfi ncpi xj hdf hncp hxj
        match i, hdf, hncp with
        | 0, hdf, hncp =>
          cases hdf
          cases hncp
          exact ⟨_, rfl⟩
        | 1, hdf, hncp =>
          cases hdf
          cases hncp
          exact ⟨_, rfl⟩
        | n + 2, hdf, _ => cases hdf)
  exact ⟨m, hm, hr, hc, hcell 1 2 10 1 2 rfl rfl rfl⟩

/-- The amended C9 with the sample library: two live distributions at the
three points `[0, 1, 2]` give a matrix of 3 rows and 2 columns whose cell
`(2, 1)` is the density of distribution 1 at `x[2]`; an empty `x` gives
no row; an empty collection gives no column. -/
theorem evaluateDistributions_dims_witness :
    (∃ m, evaluateDistributions sample [Slot.live (5, 0), Slot.live (10, 1)]
        [SEXP.extptr 0, SEXP.extptr 1] [0, 1, 2] = .ok m ∧
      m.nrow = 3 ∧ m.ncol = 2 ∧ m.cell 2 1 = 1012 ∧ sample.pdf (10, 1) 2 = .ok 1012) ∧
    (∃ m, evaluateDistributions sample [Slot.live (5, 0)] [SEXP.extptr 0] [] = .ok m ∧
      m.nrow = 0 ∧ m.ncol = 1) ∧
    (∃ m, evaluateDistributions sample [] [] [0, 1, 2] = .ok m ∧ m.nrow = 3 ∧ m.ncol = 0) := by
  refine ⟨?_, ?_, ?_⟩
  · obtain ⟨m, hm, hr, hc, hcell⟩ :=
      (evaluateDistributions_dims sample [Slot.live (5, 0), Slot.live (10, 1)]
        [SEXP.extptr 0, SEXP.extptr 1] [0, 1, 2] (by decide) (by decide)).2 (by
          intro i s hs
          match i, hs with
          | 0, hs =>
            cases hs
            exact ⟨0, (5, 0), rfl, rfl, fun _ _ _ => ⟨_, rfl⟩⟩
          | 1, hs =>
            cases hs
            exact ⟨1, (10, 1), rfl, rfl, fun _ _ _ => ⟨_, rfl⟩⟩
          | n + 2, hs => cases hs)
    exact ⟨m, hm, hr, hc, hcell 1 2 1 (10, 1) 2 1012 rfl rfl rfl rfl, rfl⟩
  · obtain ⟨m, hm, hr, hc, _⟩ :=
      (evaluateDistributions_dims sample [Slot.live (5, 0)] [SEXP.extptr 0] []
        (by decide) (by decide)).2 (by
          intro i s hs
          match i, hs with
          | 0, hs =>
            cases hs
            refine ⟨0, (5, 0), rfl, rfl, ?_⟩
            intro j xj hxj
            cases hxj
          | n + 1, hs => cases hs)
    exact ⟨m, hm, hr, hc⟩
  · obtain ⟨m, hm, hr, hc, _⟩ :=
      (evaluateDistributions_dims sample ([] : Store (Int × Int)) [] [0, 1, 2]
        (by decide) (by decide)).2 (by
          intro i s hs
          cases hs)
    exact ⟨m, hm, hr, hc⟩

end Nct
